import Mathlib

/-!
Verification development for the pursuit-alerts scanner (src/index.py, src/gemini.py).

Python strings are modelled as `List Char` (`Str`).  Compiled regular
expressions and the other library collaborators (the `re` engine on HTML,
`html.unescape`, `urllib` helpers, the HTTP fetcher, the Gemini oracle
transport, the clock) are modelled as abstract functions gathered in an
`Env` record; a compiled pattern is represented by its non-overlapping
match-count function (`len(pat.findall s)`), and `pat.search s` succeeds
exactly when that count is positive.  Everything the scanner itself
computes on top of those collaborators (whitespace handling, sentence
splitting, truncation, scoring, gating, deduplication, the retry loop,
the alert state machine) is translated directly from the source.
-/

/-- Python `str` modelled as a list of characters. -/
abbrev Str := List Char

/-- Python's `\s` character class (ASCII range), as used by `strip()`/`split()`. -/
def isPySpace (c : Char) : Bool :=
  c = ' ' || c = '\t' || c = '\n' || c = '\r' || c = '\x0b' || c = '\x0c'

/-- Python `str.strip()`: drop whitespace from both ends. -/
def pyStrip (l : Str) : Str :=
  ((l.dropWhile isPySpace).reverse.dropWhile isPySpace).reverse

/-- Helper for `pyCollapse`: the flag records whether we are inside a
whitespace run that has already emitted its single replacement space. -/
def pyCollapseAux : Bool → Str → Str
  | _, [] => []
  | inRun, c :: rest =>
    if isPySpace c then
      if inRun then pyCollapseAux true rest else ' ' :: pyCollapseAux true rest
    else c :: pyCollapseAux false rest

/-- Python `re.sub(r"\s+", " ", text)`: each maximal whitespace run becomes one space. -/
def pyCollapse (l : Str) : Str := pyCollapseAux false l

/-- `re.sub(r"\s+", " ", text).strip()`, the whitespace normalisation used on
every extracted block. -/
def pyCollapseStrip (l : Str) : Str := pyStrip (pyCollapse l)

/-- Does `hay` start with `pat`? -/
def startsWithStr : Str → Str → Bool
  | [], _ => true
  | _ :: _, [] => false
  | p :: ps, h :: hs => p = h && startsWithStr ps hs

/-- Python's `needle in hay` substring test. -/
def containsSub (needle : Str) : Str → Bool
  | [] => needle = []
  | h :: hs => startsWithStr needle (h :: hs) || containsSub needle hs

/-- ASCII model of Python `str.lower()`. -/
def pyLower (l : Str) : Str := l.map Char.toLower

/-- ASCII model of Python `str.upper()`. -/
def pyUpper (l : Str) : Str := l.map Char.toUpper

/-- `s.strip().split()[0]` when it exists: the first whitespace-delimited
token of `s`, `none` when `s` is all whitespace (where Python raises
`IndexError` on the `[0]`). -/
def firstTok (l : Str) : Option Str :=
  let l' := l.dropWhile isPySpace
  if l' = [] then none else some (l'.takeWhile (fun c => !(isPySpace c)))

/-- Python `s.rsplit(" ", 1)[0]`: everything before the last literal space,
or the whole string when it has no space. -/
def rsplitSp1 : Str → Str
  | [] => []
  | c :: rest =>
    if ' ' ∈ rest then c :: rsplitSp1 rest
    else if c = ' ' then []
    else c :: rsplitSp1 rest

/-- The character of `l` at index `i`, if any (Python `l[i]`). -/
def charAt (l : Str) (i : Nat) : Option Char := (l.drop i).head?

/-- The sentence-boundary characters of `re.split(r"(?<=[\.!?…])\s+", ·)`. -/
def isPunct (c : Char) : Bool := c = '.' || c = '!' || c = '?' || c = '…'

/-- Is the head of the list a whitespace character? -/
def headIsSpace : Str → Bool
  | [] => false
  | d :: _ => isPySpace d

/-- Fuel-driven worker for `splitAfterPunct`.  Mode `true` is "consuming the
whitespace separator run", mode `false` is "building the current segment"
(held reversed in `cur`).  Fuel `2*len+2` always suffices; it only bounds
recursion so the definition stays structurally recursive. -/
def sentSplitAux : Nat → Bool → Str → Str → List Str
  | 0, _, _, cur => [cur.reverse]
  | _ + 1, true, [], _ => [[]]
  | _ + 1, false, [], cur => [cur.reverse]
  | fuel + 1, true, c :: rest, cur =>
    if isPySpace c then sentSplitAux fuel true rest cur
    else sentSplitAux fuel false (c :: rest) []
  | fuel + 1, false, c :: rest, cur =>
    if isPunct c && headIsSpace rest then (c :: cur).reverse :: sentSplitAux fuel true rest []
    else sentSplitAux fuel false rest (c :: cur)

/-- `re.split(r"(?<=[\.!?…])\s+", text)`: split after a punctuation mark that
is followed by whitespace, consuming the whitespace run. -/
def splitAfterPunct (l : Str) : List Str :=
  sentSplitAux (2 * l.length + 2) false l []

/-- `" ".join(parts)`. -/
def joinSp (parts : List Str) : Str := List.intercalate [' '] parts

/-- Index of the first occurrence of `a` (list length when absent). -/
def firstIdx (a : Str) : List Str → Nat
  | [] => 0
  | b :: l => if b = a then 0 else firstIdx a l + 1

/-- One step of the `seen`-set deduplication loop of `extract_text_blocks`
(the `seen` set always holds exactly the elements of the accumulated output
list, so membership in the accumulator models the `in seen` test). -/
def dedupStep (acc : List Str) (b : Str) : List Str :=
  if b ∈ acc then acc else acc ++ [b]

/-- The deduplication loop of `extract_text_blocks`, preserving first-seen order. -/
def pyDedup (blocks : List Str) : List Str :=
  blocks.foldl dedupStep []

/-- Recursive characterisation of keep-first deduplication, used only in
proofs about `pyDedup`. -/
def dedupR : List Str → List Str
  | [] => []
  | b :: l => b :: dedupR (l.filter (· ≠ b))
termination_by l => l.length
decreasing_by
  simp only [List.length_cons]
  exact Nat.lt_succ_of_le (List.length_filter_le _ _)

/-- A signal of the `PATTERNS` table: `(name, compiled regex, weight)`.
The compiled regex is modelled by its non-overlapping match-count function
(`len(pat.findall s)`); `pat.search s` succeeds iff the count is positive. -/
structure Signal where
  name : String
  count : Str → Nat
  weight : Nat

/-- The observable part of a `requests.get` response. -/
structure FetchResp where
  status : Nat
  contentType : Str
  body : Str

/-- Outcome of one `_curl_generate_content` attempt: `.error` models a raised
exception, `.ok` the returned text. -/
abbrev CurlResult := Except Str Str

/-- All library collaborators of the scanner, abstracted: the sixteen
compiled signal regexes, the auxiliary regexes, the HTML helpers of the
`re` module, `html.unescape`, `urllib` helpers, the clock, the HTTP
fetcher and the Gemini transport (API key / on-disk cache / `curl`). -/
structure Env where
  re_pursuit : Str → Nat
  re_police_chase : Str → Nat
  re_car_chase : Str → Nat
  re_vehicle_chase : Str → Nat
  re_high_speed_chase : Str → Nat
  re_pit_maneuver : Str → Nat
  re_spike_strip : Str → Nat
  re_pursuit_ends : Str → Nat
  re_termination_of_pursuit : Str → Nat
  re_suspect_pursuit : Str → Nat
  re_evading : Str → Nat
  re_wrong_way_driver : Str → Nat
  re_freeway_roads : Str → Nat
  re_news_chopper : Str → Nat
  re_live_pursuit : Str → Nat
  re_lapd_chp_pursuit : Str → Nat
  /-- `re.search(r"\blive\b", text, re.I)` of `_choose_best_title_and_link`. -/
  re_live_word : Str → Bool
  /-- the link-text pattern of `_find_any_live_link`. -/
  re_live_text : Str → Bool
  /-- the href pattern `r"/live|live-"` of `_find_any_live_link`. -/
  re_live_href : Str → Bool
  /-- `_strip_scripts_and_styles` (script/style/… removal plus `<br>` → newline). -/
  cleanHtml : Str → Str
  /-- the inline script/style removal of `_extract_anchors` (no `<br>` handling). -/
  cleanNoBr : Str → Str
  /-- `re.findall(rf"<\s*TAG[^>]*>(.*?)</\s*TAG\s*>", cleaned, re.I|re.S)`. -/
  findTagInner : String → Str → List Str
  /-- the inner texts captured by the anchor regex of `extract_text_blocks`. -/
  findAnchorInner : Str → List Str
  /-- the `(href, inner)` pairs captured by the anchor regex of `_extract_anchors`. -/
  findAnchorPairs : Str → List (Str × Str)
  /-- `re.sub(r"(?is)<[^>]+>", " ", ·)`. -/
  stripInnerTags : Str → Str
  /-- `html.unescape`. -/
  unescape : Str → Str
  /-- `urllib.parse.urljoin`. -/
  urljoin : Str → Str → Str
  /-- `_domain_of` (netloc, lower-cased). -/
  domainOf : Str → Str
  /-- `_utcnow_iso()` (one run is modelled at a single instant). -/
  nowIso : Str
  /-- `requests.get`: `none` models a raised `RequestException`. -/
  fetch : Str → Option FetchResp
  /-- resolved `GEMINI_API_KEY` (env or `.env`); `none` when absent. -/
  apiKey : Option Str
  /-- the on-disk response cache, keyed here directly by prompt (the real key
  is an injective hash of `{prompt, model}` with the model fixed). -/
  gemCache : Str → Option Str
  /-- outcome of the i-th `_curl_generate_content` attempt for a prompt. -/
  gemCurl : Str → Nat → CurlResult

/-- The fixed `PATTERNS` table: names and weights are the source constants,
each compiled regex is the corresponding abstract match-count function. -/
def PATTERNS (env : Env) : List Signal :=
  [ ⟨"pursuit", env.re_pursuit, 6⟩,
    ⟨"police chase", env.re_police_chase, 7⟩,
    ⟨"car chase", env.re_car_chase, 6⟩,
    ⟨"vehicle chase", env.re_vehicle_chase, 5⟩,
    ⟨"high-speed chase", env.re_high_speed_chase, 8⟩,
    ⟨"PIT maneuver", env.re_pit_maneuver, 8⟩,
    ⟨"spike strip", env.re_spike_strip, 5⟩,
    ⟨"pursuit ends", env.re_pursuit_ends, 5⟩,
    ⟨"termination of pursuit", env.re_termination_of_pursuit, 6⟩,
    ⟨"suspect + pursuit", env.re_suspect_pursuit, 5⟩,
    ⟨"evading", env.re_evading, 3⟩,
    ⟨"wrong-way driver", env.re_wrong_way_driver, 4⟩,
    ⟨"freeway/roads", env.re_freeway_roads, 2⟩,
    ⟨"news chopper", env.re_news_chopper, 3⟩,
    ⟨"live pursuit", env.re_live_pursuit, 7⟩,
    ⟨"LAPD/CHP pursuit", env.re_lapd_chp_pursuit, 6⟩ ]

/-- The `CORE_NAMES` set. -/
def CORE_NAMES : List String :=
  [ "pursuit", "police chase", "car chase", "vehicle chase", "high-speed chase",
    "PIT maneuver", "spike strip", "pursuit ends", "termination of pursuit",
    "live pursuit", "LAPD/CHP pursuit" ]

/-- `CORE_PATTERNS`: the signals of the table whose name is core. -/
def coreSignals (env : Env) : List Signal :=
  (PATTERNS env).filter (fun sig => sig.name ∈ CORE_NAMES)

/-- `any(pat.search(html) for pat in CORE_PATTERNS)` on the raw page HTML. -/
def pageHasCore (env : Env) (html : Str) : Bool :=
  (coreSignals env).any (fun sig => sig.count html != 0)

def MIN_SCORE_TO_LOG : Nat := 6

/-- The `hits` dict: signal name → occurrence count, in insertion order. -/
abbrev Hits := List (String × Nat)

/-- `hits[name] = hits.get(name, 0) + count`. -/
def addHit (hits : Hits) (name : String) (count : Nat) : Hits :=
  if (hits.find? (fun p => p.1 = name)).isSome then
    hits.map (fun p => if p.1 = name then (p.1, p.2 + count) else p)
  else hits ++ [(name, count)]

/-- The loop body of `score_text_block` for one signal: count the matches
and, when positive, add `count * weight` to the total and record the hit. -/
def scoreStep (text : Str) (acc : Nat × Hits) (sig : Signal) : Nat × Hits :=
  let count := sig.count text
  if count != 0 then (acc.1 + count * sig.weight, addHit acc.2 sig.name count) else acc

/-- `score_text_block`: for every signal of the table count the matches,
add `count * weight` to the total and record positive counts in `hits`.
A pure function: deterministic, no I/O. -/
def score_text_block (ps : List Signal) (text : Str) : Nat × Hits :=
  ps.foldl (scoreStep text) (0, [])

/-- `split_into_sentences`: newline → space, strip, empty means no sentences,
otherwise split after sentence punctuation and keep the stripped non-empty
parts. -/
def split_into_sentences (text : Str) : List Str :=
  let t := pyStrip (text.map (fun c => if c = '\n' then ' ' else c))
  if t = [] then []
  else (splitAfterPunct t).filterMap (fun p => let q := pyStrip p; if q = [] then none else some q)

/-- The loop body of the `enumerate` loop of `best_sentence_snippet`:
a sentence replaces the running best only on a strictly higher score. -/
def bestSentStep (ps : List Signal) (acc : Nat × Nat × Hits) (is : Nat × Str) : Nat × Nat × Hits :=
  let sh := score_text_block ps is.2
  if acc.2.1 < sh.1 then (is.1, sh.1, sh.2) else acc

/-- The `enumerate` loop of `best_sentence_snippet`: index, score and hits of
the first best-scoring sentence (strict improvement only). -/
def bestSentIdx (ps : List Signal) (sentences : List Str) : Nat × Nat × Hits :=
  sentences.enum.foldl (bestSentStep ps) (0, 0, [])

/-- The neighbour-expanded excerpt before the length check:
`" ".join(sentences[max(0,i-1):min(len,i+2)]).strip()`. -/
def bssJoined (ps : List Signal) (sentences : List Str) : Str :=
  let bi := (bestSentIdx ps sentences).1
  let start := bi - 1
  let stop := min sentences.length (bi + 2)
  pyStrip (joinSp ((sentences.drop start).take (stop - start)))

/-- `best_sentence_snippet`: pick the best-scoring sentence, expand with one
neighbour on each side, and truncate over-700-character excerpts at the last
space of the 700-character prefix, appending `" …"`. -/
def best_sentence_snippet (ps : List Signal) (block : Str) : Option Str × Nat × Hits :=
  let sentences := split_into_sentences block
  if sentences = [] then (none, 0, [])
  else
    let b := bestSentIdx ps sentences
    let snippet := bssJoined ps sentences
    let snippet := if 700 < snippet.length then rsplitSp1 (snippet.take 700) ++ [' ', '…'] else snippet
    (some snippet, b.2.1, b.2.2)

/-- tag-strip, entity-unescape and whitespace-collapse one raw inner match. -/
def normText (env : Env) (m : Str) : Str :=
  pyCollapseStrip (env.unescape (env.stripInnerTags m))

def HEAD_TAGS : List String := ["h1", "h2", "h3", "h4", "h5", "h6", "p", "li"]

/-- Keep rule for heading/paragraph/list-item blocks: `h1`–`h3` always, other
tags need length ≥ 30 or some signal match. -/
def keepTagText (env : Env) (tag : String) (text : Str) : Bool :=
  if tag ∈ (["h1", "h2", "h3"] : List String) then true
  else if text.length < 30 then (PATTERNS env).any (fun sig => sig.count text != 0)
  else true

/-- The heading/paragraph/list-item harvest of `extract_text_blocks` for one tag. -/
def tagBlocks (env : Env) (cleaned : Str) (tag : String) : List Str :=
  (env.findTagInner tag cleaned).filterMap (fun m =>
    let text := normText env m
    if text = [] then none
    else if keepTagText env tag text then some text else none)

/-- The anchor-text harvest of `extract_text_blocks`: keep anchors whose text
has length ≥ 25 or matches some signal. -/
def anchorBlocks (env : Env) (cleaned : Str) : List Str :=
  (env.findAnchorInner cleaned).filterMap (fun m =>
    let text := normText env m
    if text = [] then none
    else if 25 ≤ text.length || (PATTERNS env).any (fun sig => sig.count text != 0) then some text
    else none)

/-- All candidate blocks of a page in harvest order: the eight content tags
in turn, then the anchors. -/
def gatherBlocks (env : Env) (html : Str) : List Str :=
  let cleaned := env.cleanHtml html
  (HEAD_TAGS.map (tagBlocks env cleaned)).flatten ++ anchorBlocks env cleaned

/-- `extract_text_blocks`: harvest, deduplicate keeping first occurrences,
truncate to the first 600 entries. -/
def extract_text_blocks (env : Env) (html : Str) : List Str :=
  (pyDedup (gatherBlocks env html)).take 600

/-- Truthiness of the running `best_snippet` value (`None` and `""` are falsy). -/
def snippetTruthy : Option Str → Bool
  | none => false
  | some t => t != []

/-- one `Finding` (the dict returned by `scan_page_for_chase`). -/
structure Finding where
  url : Str
  score : Nat
  /-- `round(min(1.0, score / 10.0), 2)`; on these one-decimal values the
  2-decimal float rounding is the identity, so it is modelled exactly. -/
  confidence : ℚ
  text : Str
  hits : Hits
  html : Str
deriving DecidableEq

/-- The loop body of the per-block tournament of `scan_page_for_chase`:
a block replaces the running best only with a strictly higher best-sentence
score and a truthy snippet. -/
def blockStep (env : Env) (acc : Option Str × Nat × Hits) (block : Str) : Option Str × Nat × Hits :=
  let r := best_sentence_snippet (PATTERNS env) block
  if acc.2.1 < r.2.1 && snippetTruthy r.1 then r else acc

/-- The per-block tournament of `scan_page_for_chase`. -/
def bestBlockResult (env : Env) (html : Str) : Option Str × Nat × Hits :=
  (extract_text_blocks env html).foldl (blockStep env) (none, 0, [])

/-- The post-fetch body of `scan_page_for_chase`, given the raw page HTML:
gate on a core match in the raw HTML, score all blocks, apply the minimum
threshold, and build the `Finding`. -/
def scanHtml (env : Env) (url html : Str) : Option Finding :=
  let best := bestBlockResult env html
  if !(pageHasCore env html) || best.2.1 < MIN_SCORE_TO_LOG || !(snippetTruthy best.1) then none
  else
    some { url := url,
           score := best.2.1,
           confidence := min 1 ((best.2.1 : ℚ) / 10),
           text := best.1.getD [],
           hits := best.2.2,
           html := html }

def DENIED_MARKER : Str := "Access to this site has been denied".toList

/-- `scan_page_for_chase`: fetch (any transport error, status ≥ 400, non-HTML
content type or the soft-block marker yields no finding), then scan the body. -/
def scan_page_for_chase (env : Env) (url : Str) : Option Finding :=
  match env.fetch url with
  | none => none
  | some resp =>
    if 400 ≤ resp.status then none
    else if !(containsSub "text/html".toList (pyLower resp.contentType)) then none
    else if containsSub DENIED_MARKER resp.body then none
    else scanHtml env url resp.body

/-- `_extract_anchors`: `(text, href)` pairs of anchors with a non-empty
normalised text, from the script-stripped (but `<br>`-preserving) HTML. -/
def extractAnchors (env : Env) (html : Str) : List (Str × Str) :=
  (env.findAnchorPairs (env.cleanNoBr html)).filterMap (fun p =>
    let text := normText env p.2
    if text = [] then none else some (text, p.1))

/-- `_extract_headings`: normalised non-empty `h1`–`h6` texts. -/
def extractHeadings (env : Env) (html : Str) : List Str :=
  let cleaned := env.cleanHtml html
  ((["h1", "h2", "h3", "h4", "h5", "h6"] : List String).map (fun tag =>
    (env.findTagInner tag cleaned).filterMap (fun m =>
      let text := normText env m
      if text = [] then none else some text))).flatten

/-- Pattern score of a candidate title plus the `+6` bonus for a standalone
word "live". -/
def adjScore (env : Env) (text : Str) : Nat :=
  (score_text_block (PATTERNS env) text).1 + (if env.re_live_word text then 6 else 0)

/-- The anchor step of `_choose_best_title_and_link`: an anchor becomes the
best candidate only with a strictly higher bonus-adjusted score, resolving
its href against the base URL. -/
def chooseStepA (env : Env) (url : Str) (acc : Option Str × Option Str × Nat) (p : Str × Str) :
    Option Str × Option Str × Nat :=
  if acc.2.2 < adjScore env p.1 then (some p.1, some (env.urljoin url p.2), adjScore env p.1)
  else acc

/-- The heading step of `_choose_best_title_and_link`: a winning heading
clears the candidate link. -/
def chooseStepH (env : Env) (acc : Option Str × Option Str × Nat) (t : Str) :
    Option Str × Option Str × Nat :=
  if acc.2.2 < adjScore env t then (some t, none, adjScore env t) else acc

/-- `_choose_best_title_and_link`: anchors first, then headings, keeping the
candidate whose bonus-adjusted score strictly exceeds the running best;
winning headings carry no link. -/
def chooseBestTitleAndLink (env : Env) (html url : Str) : Option Str × Option Str :=
  let anchors := extractAnchors env html
  let headings := extractHeadings env html
  let acc1 := anchors.foldl (chooseStepA env url) (none, none, 0)
  let acc2 := headings.foldl (chooseStepH env) acc1
  (acc2.1, acc2.2.1)

/-- `_find_any_live_link`: the first anchor with a non-empty href whose text
or href looks live, resolved against the base URL. -/
def findAnyLiveLink (env : Env) (html url : Str) : Option Str :=
  (extractAnchors env html).findSome? (fun p =>
    if p.2 = [] then none
    else if env.re_live_text p.1 || env.re_live_href p.2 then some (env.urljoin url p.2)
    else none)

/-- `title = result.get("text") or ""` fallback of the main loop: the chosen
title when truthy, else the finding's snippet (`or ""` is the identity on a
snippet that is itself empty). -/
def resolveTitle (chosen : Option Str) (ftext : Str) : Str :=
  match chosen with
  | none => ftext
  | some t => if t = [] then ftext else t

/-- The bounded retry loop of `ask_gemini`, with `rem` attempts left and `i`
the current attempt index.  Returns the call outcome and the cache write
(`some t` exactly when `_save_cache` ran with response `t`):
a non-empty response is cached and returned; an empty response is retried;
an exception re-raises on the last attempt and is otherwise swallowed;
exhausting all attempts on empty responses returns the empty string. -/
def askGeminiLoop (curl : Nat → CurlResult) : Nat → Nat → CurlResult × Option Str
  | 0, _ => (.ok [], none)
  | rem + 1, i =>
    match curl i with
    | .ok t => if t = [] then askGeminiLoop curl rem (i + 1) else (.ok t, some t)
    | .error e => if rem = 0 then (.error e, none) else askGeminiLoop curl rem (i + 1)

/-- `ask_gemini`: a missing (or empty) API key raises `ValueError` before
anything else; a cache hit is returned as-is without any network attempt;
otherwise the retry loop runs for `maxRetries` attempts.  The second
component is the cache write performed by the call, if any. -/
def ask_gemini (apiKey : Option Str) (cache : Option Str) (curl : Nat → CurlResult)
    (maxRetries : Nat) : CurlResult × Option Str :=
  match apiKey with
  | none => (.error "GEMINI_API_KEY not set. Set it in your environment or .env.".toList, none)
  | some k =>
    if k = [] then (.error "GEMINI_API_KEY not set. Set it in your environment or .env.".toList, none)
    else
      match cache with
      | some c => (.ok c, none)
      | none => askGeminiLoop curl maxRetries 0

/-- The outcome of `ask_gemini(prompt)` as observed by index.py (default
model and `max_retries=3`; the cache write is not observed by the caller). -/
def geminiCall (env : Env) (prompt : Str) : CurlResult :=
  (ask_gemini env.apiKey (env.gemCache prompt) (env.gemCurl prompt) 3).1

/-- `(resp or "").strip().split()[0].upper() if resp else ""`, then the
comparison to "YES".  `.error ()` models the `IndexError` raised when a
non-empty response consists only of whitespace (the `[0]` fails); that
exception is *outside* the `try` of the gateways and would escape. -/
def answerIsYes (resp : Str) : Except Unit Bool :=
  if resp = [] then .ok (([] : Str) = "YES".toList)
  else
    match firstTok resp with
    | none => .error ()
    | some t => .ok (pyUpper t = "YES".toList)

/-- The prompt of `_ask_is_live_ongoing`. -/
def livePrompt (title : Str) : Str :=
  ("You are a strict classifier. Given the news headline, decide if it indicates a LIVE ongoing police pursuit/chase that is currently happening and being broadcast live. Respond with a single token: YES or NO. If unsure, respond NO.\nHeadline: \"").toList
    ++ title ++ "\"\nAnswer:".toList

/-- `_ask_is_live_ongoing`: empty title → `False` without any oracle call;
an exception from `ask_gemini` is caught and yields `False`; otherwise the
first response token, upper-cased, is compared to "YES". -/
def askIsLiveOngoing (env : Env) (title : Str) : Except Unit Bool :=
  if title = [] then .ok false
  else
    match geminiCall env (livePrompt title) with
    | .error _ => .ok false
    | .ok resp => answerIsYes resp

/-- The persisted / compared chase event.  The `time` field stands for the
`evaluated_at` timestamp of the freshly built current event and for the
`alerted_at` timestamp of the persisted one (both `_utcnow_iso()`). -/
structure ChaseEvent where
  title : Str
  text : Str
  page_url : Str
  source_site : Str
  live_link : Str
  time : Str
deriving DecidableEq

/-- The `prev_*` summary block of the deduplication prompt. -/
def prevSummary (p : ChaseEvent) : Str :=
  "prev_title: ".toList ++ p.title ++ "\nprev_text: ".toList ++ p.text
    ++ "\nprev_site: ".toList ++ p.source_site ++ "\nprev_url: ".toList ++ p.page_url
    ++ "\nprev_live: ".toList ++ p.live_link ++ "\nprev_time_utc: ".toList ++ p.time
    ++ "\n".toList

/-- The `curr_*` summary block of the deduplication prompt. -/
def currSummary (c : ChaseEvent) : Str :=
  "curr_title: ".toList ++ c.title ++ "\ncurr_text: ".toList ++ c.text
    ++ "\ncurr_site: ".toList ++ c.source_site ++ "\ncurr_url: ".toList ++ c.page_url
    ++ "\ncurr_live: ".toList ++ c.live_link ++ "\ncurr_time_utc: ".toList ++ c.time
    ++ "\n".toList

/-- The prompt of `_ask_is_same_chase`. -/
def dedupPrompt (prev cur : ChaseEvent) : Str :=
  ("You are a strict deduplication classifier for police pursuits. There is only one chase at a time.\nDetermine if the CURRENT chase is the same ongoing event as the PREVIOUS chase (possibly covered by a different outlet or link).\nUse location cues, suspect/vehicle details, and close time proximity. If it likely refers to the same ongoing event or a continuation/update, answer YES. Otherwise NO.\nOutput only YES or NO.\n\nPREVIOUS:\n").toList
    ++ prevSummary prev ++ "\nCURRENT:\n".toList ++ currSummary cur ++ "\nAnswer:".toList

/-- `_ask_is_same_chase`: a falsy `previous` returns `False` immediately
(no prompt is built, no oracle consulted); otherwise the oracle's answer is
parsed exactly as in the live gateway, failing closed on exceptions from
`ask_gemini`. -/
def askIsSameChase (env : Env) (previous : Option ChaseEvent) (current : ChaseEvent) :
    Except Unit Bool :=
  match previous with
  | none => .ok false
  | some prev =>
    match geminiCall env (dedupPrompt prev current) with
    | .error _ => .ok false
    | .ok resp => answerIsYes resp

/-- Python `x or y` on an optional string (both `None` and `""` are falsy). -/
def pyOr (a b : Option Str) : Option Str :=
  match a with
  | none => b
  | some s => if s = [] then b else some s

/-- Final `or url` of the live-link chain: the url is used when everything
before it is falsy. -/
def pyOrS (a : Option Str) (u : Str) : Str :=
  match a with
  | none => u
  | some s => if s = [] then u else s

/-- The Discord alert message. -/
def alertMsg (title link : Str) : Str :=
  "@everyone LIVE ONGOING CHASE: ".toList ++ title ++ "\n".toList ++ link

/-- The `title` local of the main loop: the resolved best title with the
snippet fallback. -/
def processTitle (env : Env) (f : Finding) (url : Str) : Str :=
  resolveTitle (chooseBestTitleAndLink env f.html url).1 f.text

/-- The `live_link` local of the main loop:
`_find_any_live_link(...) or candidate_href or result["url"]`. -/
def processLiveLink (env : Env) (f : Finding) (url : Str) : Str :=
  pyOrS (pyOr (findAnyLiveLink env f.html url) (chooseBestTitleAndLink env f.html url).2) url

/-- The `current_obj` dict built for deduplication; the same field values
are persisted on alert (under the key `alerted_at` instead of
`evaluated_at`, both being `_utcnow_iso()` of the same run instant). -/
def currentEvent (env : Env) (f : Finding) (url : Str) : ChaseEvent :=
  { title := processTitle env f url, text := f.text, page_url := f.url,
    source_site := env.domainOf f.url, live_link := processLiveLink env f url,
    time := env.nowIso }

/-- One iteration of the main loop for one URL, as a transition on the
persisted last-chase state.  Result: the alert message sent (if any) and the
new persisted state; `.error` models an uncaught exception escaping the
loop.  Console printing and the best-effort `log_pursuit` file append have
no effect on this state and are not modelled. -/
def processUrl (env : Env) (state : Option ChaseEvent) (url : Str) :
    Except Unit (Option Str × Option ChaseEvent) :=
  match scan_page_for_chase env url with
  | none => .ok (none, state)
  | some f =>
    match askIsLiveOngoing env (processTitle env f url) with
    | .error e => .error e
    | .ok false => .ok (none, state)
    | .ok true =>
      match state with
      | some last =>
        match askIsSameChase env (some last) (currentEvent env f url) with
        | .error e => .error e
        | .ok true => .ok (none, state)
        | .ok false =>
          .ok (some (alertMsg (processTitle env f url) (processLiveLink env f url)),
               some (currentEvent env f url))
      | none =>
        .ok (some (alertMsg (processTitle env f url) (processLiveLink env f url)),
             some (currentEvent env f url))

/-- The whole scan: fold `processUrl` over the URL list, collecting the
alerts that were sent and threading the persisted state. -/
def runAll (env : Env) : List Str → Option ChaseEvent →
    Except Unit (List Str × Option ChaseEvent)
  | [], state => .ok ([], state)
  | url :: rest, state =>
    match processUrl env state url with
    | .error e => .error e
    | .ok (msg, st) =>
      match runAll env rest st with
      | .error e => .error e
      | .ok (msgs, stf) => .ok ((match msg with | some m => [m] | none => []) ++ msgs, stf)

/-- A fully trivial collaborator assignment, the base for concrete test
environments: every regex matches nothing and all HTML finders are empty. -/
def baseEnv : Env :=
  { re_pursuit := fun _ => 0, re_police_chase := fun _ => 0, re_car_chase := fun _ => 0,
    re_vehicle_chase := fun _ => 0, re_high_speed_chase := fun _ => 0,
    re_pit_maneuver := fun _ => 0, re_spike_strip := fun _ => 0,
    re_pursuit_ends := fun _ => 0, re_termination_of_pursuit := fun _ => 0,
    re_suspect_pursuit := fun _ => 0, re_evading := fun _ => 0,
    re_wrong_way_driver := fun _ => 0, re_freeway_roads := fun _ => 0,
    re_news_chopper := fun _ => 0, re_live_pursuit := fun _ => 0,
    re_lapd_chp_pursuit := fun _ => 0,
    re_live_word := fun _ => false, re_live_text := fun _ => false,
    re_live_href := fun _ => false,
    cleanHtml := id, cleanNoBr := id,
    findTagInner := fun _ _ => [], findAnchorInner := fun _ => [],
    findAnchorPairs := fun _ => [],
    stripInnerTags := id, unescape := id,
    urljoin := fun _ h => h, domainOf := fun _ => [],
    nowIso := [],
    fetch := fun _ => none,
    apiKey := some "k".toList, gemCache := fun _ => none,
    gemCurl := fun _ _ => .ok [] }

def yesL : Str := "YES".toList

/-- A page body for the concrete environments (its content is irrelevant:
the abstract finders and counters below do not inspect it). -/
def wHtml : Str := "page".toList

/-- A block matching only the non-core "evading" signal, twice: block score
`2 * 3 = 6` reaches the threshold while no core signal fires anywhere. -/
def wBlockNoCore : Str := "suspects evading on roads".toList

/-- Environment for a page whose only signal is non-core: the `evading`
count is 2 everywhere (score 6), every core count is 0, and the page has a
single `h1` block. -/
def envNoCore : Env :=
  { baseEnv with
    re_evading := fun _ => 2,
    findTagInner := fun tag _ => if tag = "h1" then [wBlockNoCore] else [] }

/-- A block matching the core "pursuit" signal once (score 6). -/
def wBlockCore : Str := "Police pursuit downtown".toList

/-- Environment for a live-chase page: the `pursuit` count is 1 everywhere
(core gate passes, block score 6), the page has a single `h1` block, the
fetch succeeds with an HTML content type, and every oracle attempt answers
"YES". -/
def envLiveYes : Env :=
  { baseEnv with
    re_pursuit := fun _ => 1,
    findTagInner := fun tag _ => if tag = "h1" then [wBlockCore] else [],
    fetch := fun _ => some { status := 200, contentType := "text/html".toList, body := wHtml },
    gemCurl := fun _ _ => .ok yesL }

/-- `envLiveYes` with the API key absent. -/
def envNoKey : Env := { envLiveYes with apiKey := none }

/-- A persisted previous chase used by concrete runs. -/
def wLast : ChaseEvent :=
  { title := "Police pursuit downtown".toList, text := "t".toList,
    page_url := "u".toList, source_site := "s".toList,
    live_link := "l".toList, time := "2025-01-01T00:00:00Z".toList }

def wUrl : Str := "https://example.com/".toList

/-- Environment with a single anchor candidate that matches nothing. -/
def envZeroScore : Env :=
  { baseEnv with findAnchorPairs := fun _ => [("/x".toList, "Some headline words".toList)] }

/-! ## General lemmas -/

theorem score_text_block_foldl (text : Str) :
    ∀ (ps : List Signal) (acc : Nat × Hits),
      (ps.map Signal.name).Nodup →
      (∀ sig ∈ ps, ∀ q ∈ acc.2, q.1 ≠ sig.name) →
      ps.foldl (scoreStep text) acc
        = (acc.1 + (ps.map fun sig => sig.count text * sig.weight).sum,
           acc.2 ++ ps.filterMap fun sig =>
             if sig.count text != 0 then some (sig.name, sig.count text) else none) := by
  intro ps
  induction ps with
  | nil => intro acc _ _; simp
  | cons sig tl ih =>
    intro acc hnd hdisj
    simp only [List.map_cons, List.nodup_cons] at hnd
    rw [List.foldl_cons]
    by_cases hc : sig.count text = 0
    · have hstep : scoreStep text acc sig = acc := by simp [scoreStep, hc]
      rw [hstep, ih acc hnd.2 (fun s hs q hq => hdisj s (List.mem_cons_of_mem _ hs) q hq)]
      simp [hc]
    · have hfind : acc.2.find? (fun p => p.1 = sig.name) = none :=
        List.find?_eq_none.2 (fun q hq => by
          simpa using hdisj sig (List.mem_cons_self sig tl) q hq)
      have hstep : scoreStep text acc sig
          = (acc.1 + sig.count text * sig.weight, acc.2 ++ [(sig.name, sig.count text)]) := by
        simp [scoreStep, addHit, hfind, hc]
      rw [hstep, ih (acc.1 + sig.count text * sig.weight, acc.2 ++ [(sig.name, sig.count text)])
          hnd.2 ?_]
      · simp only [List.map_cons, List.sum_cons, List.filterMap_cons, hc]
        refine Prod.ext ?_ ?_
        · simp only []
          omega
        · simp [hc, List.append_assoc]
      · intro s hs q hq
        rcases List.mem_append.1 hq with hq | hq
        · exact hdisj s (List.mem_cons_of_mem _ hs) q hq
        · have hq2 : q = (sig.name, sig.count text) := by simpa using hq
          subst hq2
          intro hEq
          simp only at hEq
          exact hnd.1 (by rw [hEq]; exact List.mem_map_of_mem Signal.name hs)

/-! ## C2: the Pattern Scorer -/

/-- C2.  For every input string, the Pattern Scorer's total equals the sum
over all signals of the fixed table of (non-overlapping match count) ×
(weight); the total is non-negative (it lives in ℕ), and the hits mapping
records exactly the signals with positive match count, with their counts,
in table order.  `score_text_block` is a plain function of its input, so
the result is deterministic for identical input. -/
theorem score_text_block_spec (env : Env) (text : Str) :
    (score_text_block (PATTERNS env) text).1
        = ((PATTERNS env).map fun sig => sig.count text * sig.weight).sum
      ∧ (score_text_block (PATTERNS env) text).2
        = (PATTERNS env).filterMap (fun sig =>
            if sig.count text != 0 then some (sig.name, sig.count text) else none)
      ∧ 0 ≤ (score_text_block (PATTERNS env) text).1 := by
  have hnd : ((PATTERNS env).map Signal.name).Nodup := by
    simp only [PATTERNS, List.map_cons, List.map_nil]
    decide
  have h := score_text_block_foldl text (PATTERNS env) (0, []) hnd
    (by intro sig _ q hq; simp at hq)
  unfold score_text_block
  rw [h]
  simp

/-! ## C7: the Deduplication Gateway with no previous event -/

/-- C7.  When no previous event is persisted (`not previous` holds, here
`none`), the Deduplication Gateway returns "not a duplicate" immediately:
for every oracle assignment (so the oracle is never consulted) and for
every current candidate event, the result is `False`. -/
theorem askIsSameChase_none (env : Env) (current : ChaseEvent) :
    askIsSameChase env none current = .ok false := rfl

/-! ## C10: the oracle cache never stores empty responses -/

theorem askGeminiLoop_write_nonempty (curl : Nat → CurlResult) :
    ∀ (rem i : Nat) (t : Str), (askGeminiLoop curl rem i).2 = some t → t ≠ [] := by
  intro rem
  induction rem with
  | zero => intro i t h; simp [askGeminiLoop] at h
  | succ rem ih =>
    intro i t h
    simp only [askGeminiLoop] at h
    split at h
    · split at h
      · exact ih (i + 1) t h
      · next hr =>
        simp only [Option.some_inj] at h
        exact h ▸ hr
    · split at h
      · simp at h
      · exact ih (i + 1) t h

theorem askGeminiLoop_all_empty (curl : Nat → CurlResult) :
    ∀ (rem i : Nat), (∀ j, i ≤ j → j < i + rem → curl j = .ok []) →
      askGeminiLoop curl rem i = (.ok [], none) := by
  intro rem
  induction rem with
  | zero => intro i _; simp [askGeminiLoop]
  | succ rem ih =>
    intro i h
    have hi : curl i = .ok [] := h i (Nat.le_refl i) (by omega)
    simp only [askGeminiLoop, hi, if_pos]
    exact ih (i + 1) (fun j h1 h2 => h j (by omega) (by omega))

/-- C10.  The oracle gateway never persists an empty response: a cache write
happens only with a non-empty response text (so every response the program
itself caches is non-empty), and a cache-miss run whose attempts all return
empty responses ends by returning the empty string with no cache write. -/
theorem ask_gemini_cache_discipline (apiKey cache : Option Str) (curl : Nat → CurlResult)
    (maxRetries : Nat) :
    (∀ t, (ask_gemini apiKey cache curl maxRetries).2 = some t → t ≠ [])
      ∧ (∀ k, apiKey = some k → k ≠ [] → cache = none →
          (∀ i, i < maxRetries → curl i = .ok []) →
          ask_gemini apiKey cache curl maxRetries = (.ok [], none)) := by
  constructor
  · intro t h
    rcases apiKey with _ | k
    · simp [ask_gemini] at h
    · by_cases hke : k = []
      · simp [ask_gemini, hke] at h
      · rcases cache with _ | c
        · simp only [ask_gemini, if_neg hke] at h
          exact askGeminiLoop_write_nonempty curl maxRetries 0 t h
        · simp [ask_gemini, if_neg hke] at h
  · intro k hk hke hc hcurl
    subst hk
    subst hc
    simp only [ask_gemini, if_neg hke]
    exact askGeminiLoop_all_empty curl maxRetries 0 (fun j h1 h2 => hcurl j (by omega))

/-- Concrete runs of `ask_gemini`: a successful non-empty response is cached
(and that cached response is non-empty, by the theorem), and an all-empty
run returns `""` with no cache write. -/
theorem ask_gemini_cache_discipline_witness :
    ((ask_gemini (some "k".toList) none (fun _ => .ok yesL) 3).2 = some yesL ∧ yesL ≠ [])
      ∧ ask_gemini (some "k".toList) none (fun _ => .ok ([] : Str)) 3 = (.ok [], none) :=
  ⟨⟨rfl, (ask_gemini_cache_discipline (some "k".toList) none (fun _ => .ok yesL) 3).1 yesL rfl⟩,
   (ask_gemini_cache_discipline (some "k".toList) none (fun _ => .ok ([] : Str)) 3).2
     "k".toList rfl (by decide) rfl (fun i _ => rfl)⟩

/-! ## C5: the Live Classifier Gateway -/

theorem pyStrip_dropWhile (s : Str) (h : pyStrip s = s) : s.dropWhile isPySpace = s := by
  cases s with
  | nil => rfl
  | cons c t =>
    by_cases hcs : isPySpace c = true
    · exfalso
      have hlen : (pyStrip (c :: t)).length ≤ t.length := by
        unfold pyStrip
        calc ((((c :: t).dropWhile isPySpace).reverse.dropWhile isPySpace).reverse).length
            = (((c :: t).dropWhile isPySpace).reverse.dropWhile isPySpace).length :=
              List.length_reverse _
          _ ≤ (((c :: t).dropWhile isPySpace).reverse).length :=
              (List.dropWhile_sublist _).length_le
          _ = ((c :: t).dropWhile isPySpace).length := List.length_reverse _
          _ = (t.dropWhile isPySpace).length := by rw [List.dropWhile_cons, if_pos hcs]
          _ ≤ t.length := (List.dropWhile_sublist _).length_le
      rw [h] at hlen
      simp at hlen
    · rw [List.dropWhile_cons, if_neg hcs]

/-- C5.  The Live Classifier Gateway returns true exactly when the oracle
call succeeds and the first whitespace-delimited token of the response,
upper-cased, equals "YES"; an oracle error (including the one produced by
exhausting all retries), an empty response, or any other first token yields
`False`, and — given that `ask_gemini` only ever returns stripped strings
(its transport strips every response and it caches only such values, see
`ask_gemini_cache_discipline`) — no exception escapes the gateway. -/
theorem askIsLiveOngoing_spec (env : Env) (title : Str)
    (htrim : ∀ s, geminiCall env (livePrompt title) = .ok s → pyStrip s = s) :
    (askIsLiveOngoing env title = .ok true ↔
        title ≠ [] ∧ ∃ s, geminiCall env (livePrompt title) = .ok s
          ∧ (firstTok s).map pyUpper = some yesL)
      ∧ ∃ b, askIsLiveOngoing env title = .ok b := by
  by_cases ht : title = []
  · subst ht
    have hA : askIsLiveOngoing env [] = .ok false := by simp [askIsLiveOngoing]
    exact ⟨by simp [hA], false, hA⟩
  · cases hg : geminiCall env (livePrompt title) with
    | error e =>
      have hA : askIsLiveOngoing env title = .ok false := by
        simp [askIsLiveOngoing, ht, hg]
      refine ⟨?_, false, hA⟩
      rw [hA]
      constructor
      · intro habs; simp at habs
      · rintro ⟨-, s, hs, -⟩
        simp at hs
    | ok resp =>
      have hstrip := htrim resp hg
      by_cases hr : resp = []
      · subst hr
        have hA : askIsLiveOngoing env title = .ok false := by
          simp [askIsLiveOngoing, ht, hg, answerIsYes, yesL]
        refine ⟨?_, false, hA⟩
        rw [hA]
        constructor
        · intro habs; simp at habs
        · rintro ⟨-, s, hs, hmap⟩
          injection hs with hs1
          subst hs1
          simp [firstTok] at hmap
      · have hdw : resp.dropWhile isPySpace = resp := pyStrip_dropWhile resp hstrip
        have hft : firstTok resp = some (resp.takeWhile (fun c => !(isPySpace c))) := by
          simp [firstTok, hdw, hr]
        have hAns : answerIsYes resp
            = .ok (pyUpper (resp.takeWhile (fun c => !(isPySpace c))) = yesL) := by
          simp [answerIsYes, hr, hft, yesL]
        have hA : askIsLiveOngoing env title = answerIsYes resp := by
          simp [askIsLiveOngoing, ht, hg]
        refine ⟨?_, _, hA.trans hAns⟩
        rw [hA, hAns]
        constructor
        · intro hok
          simp only [Except.ok.injEq, decide_eq_true_eq] at hok
          exact ⟨ht, resp, rfl, by rw [hft]; simpa using hok⟩
        · rintro ⟨-, s, hs, hmap⟩
          injection hs with hs1
          subst hs1
          rw [hft] at hmap
          simp at hmap
          simp [hmap]

/-- Concrete run of the gateway through the theorem: a "YES" oracle answer
makes the gateway return true. -/
theorem askIsLiveOngoing_spec_witness :
    askIsLiveOngoing envLiveYes "Chase".toList = .ok true := by
  have htrim : ∀ s, geminiCall envLiveYes (livePrompt "Chase".toList) = .ok s → pyStrip s = s := by
    intro s hs
    have h0 : geminiCall envLiveYes (livePrompt "Chase".toList) = .ok yesL := rfl
    rw [h0] at hs
    injection hs with h1
    rw [← h1]
    decide
  exact (askIsLiveOngoing_spec envLiveYes "Chase".toList htrim).1.mpr
    ⟨by decide, yesL, rfl, by decide⟩

/-! ## C1: the Page Scanner core gate -/

/-- C1.  The Page Scanner returns no finding whenever the raw HTML matches
no core signal, whatever the block scores are; and it returns a finding
exactly when the raw HTML has a core match, the best block score reaches
`MIN_SCORE_TO_LOG = 6`, and a truthy (non-empty) snippet was selected. -/
theorem scanHtml_gate (env : Env) (url html : Str) :
    (pageHasCore env html = false → scanHtml env url html = none)
      ∧ (scanHtml env url html ≠ none ↔
          pageHasCore env html = true
            ∧ MIN_SCORE_TO_LOG ≤ (bestBlockResult env html).2.1
            ∧ snippetTruthy (bestBlockResult env html).1 = true) := by
  unfold scanHtml
  by_cases h1 : pageHasCore env html = true <;>
    by_cases h2 : (bestBlockResult env html).2.1 < MIN_SCORE_TO_LOG <;>
      by_cases h3 : snippetTruthy (bestBlockResult env html).1 = true
  all_goals simp [h1, h2, h3]
  all_goals omega

/-- Concrete run through the theorem: a page whose only firing signal is the
non-core `evading` (block score 6 ≥ threshold, non-empty snippet) is still
rejected because no core signal matches the raw HTML. -/
theorem scanHtml_gate_witness :
    pageHasCore envNoCore wHtml = false
      ∧ MIN_SCORE_TO_LOG ≤ (bestBlockResult envNoCore wHtml).2.1
      ∧ scanHtml envNoCore wUrl wHtml = none :=
  ⟨by decide, by decide, (scanHtml_gate envNoCore wUrl wHtml).1 (by decide)⟩

/-! ## C3: a missing API key is not a startup error -/

theorem processUrl_apiKey_none (env : Env) (state : Option ChaseEvent) (url : Str) :
    processUrl { env with apiKey := none } state url = .ok (none, state) := by
  have hlive : ∀ title, askIsLiveOngoing { env with apiKey := none } title = .ok false := by
    intro title
    by_cases ht : title = []
    · simp [askIsLiveOngoing, ht]
    · simp [askIsLiveOngoing, ht, geminiCall, ask_gemini]
  unfold processUrl
  cases hscan : scan_page_for_chase { env with apiKey := none } url with
  | none => rfl
  | some f => simp [hlive]

/-- C3 (amended).  With the API key absent, no startup failure occurs and
scanning is not prevented: `ask_gemini` raises its configuration error only
when a classification is attempted, the gateway catches it and returns
`False`, so a whole run over any URL list completes normally, fetches and
scans every page, sends no alert, and leaves the persisted state unchanged. -/
theorem runAll_apiKey_none (env : Env) (urls : List Str) (state : Option ChaseEvent) :
    runAll { env with apiKey := none } urls state = .ok ([], state) := by
  induction urls generalizing state with
  | nil => rfl
  | cons url rest ih =>
    simp [runAll, processUrl_apiKey_none, ih]

/-- C3 (counterexample to the claim as stated).  In a concrete run with the
API key absent, the page *is* fetched and scanned (the scan yields a
finding), the per-URL step returns normally with no alert, and the whole
run completes without any raised configuration error — there is no fatal
failure at startup and partial operation does occur. -/
theorem missing_key_scans_anyway :
    envNoKey.apiKey = none
      ∧ (scan_page_for_chase envNoKey wUrl).isSome = true
      ∧ processUrl envNoKey none wUrl = .ok (none, none)
      ∧ runAll envNoKey [wUrl] none = .ok ([], none) :=
  ⟨rfl, rfl, rfl, rfl⟩

/-! ## C6: duplicate suppression leaves the state alone -/

/-- C6.  When the oracle judges the current detection a duplicate of the
persisted last chase (it answers "YES"; here every oracle call answers
"YES", which makes both the live gate and the dedup gate answer yes), no
alert is sent and the persisted state is returned unchanged; and in
general, whenever the per-URL step sends no alert the state is unchanged —
the state is overwritten only together with an actually sent alert. -/
theorem processUrl_dedup_skip (env : Env) (state : Option ChaseEvent) (url : Str) :
    ((∃ last, state = some last) → (∀ p, geminiCall env p = .ok yesL) →
        processUrl env state url = .ok (none, state))
      ∧ (∀ msg st, processUrl env state url = .ok (msg, st) → msg = none → st = state) := by
  have hyes : answerIsYes yesL = .ok true := rfl
  constructor
  · rintro ⟨last, rfl⟩ hg
    unfold processUrl
    cases hscan : scan_page_for_chase env url with
    | none => rfl
    | some f =>
      have hsame : askIsSameChase env (some last) (currentEvent env f url) = .ok true := by
        simp [askIsSameChase, hg, hyes]
      by_cases ht : processTitle env f url = []
      · simp [askIsLiveOngoing, ht]
      · have hlive : askIsLiveOngoing env (processTitle env f url) = .ok true := by
          simp [askIsLiveOngoing, ht, hg, hyes]
        simp [hlive, hsame]
  · intro msg st h hmsg
    subst hmsg
    unfold processUrl at h
    split at h
    · injection h with h1
      exact (congrArg Prod.snd h1).symm
    · split at h
      · simp at h
      · injection h with h1
        exact (congrArg Prod.snd h1).symm
      · split at h
        · split at h
          · simp at h
          · injection h with h1
            exact (congrArg Prod.snd h1).symm
          · simp at h
        · simp at h

/-- Concrete duplicate run through the theorem: with a persisted last chase
and an oracle answering "YES" to everything, the step sends no alert and
returns the state unchanged. -/
theorem processUrl_dedup_skip_witness :
    processUrl envLiveYes (some wLast) wUrl = .ok (none, some wLast) :=
  (processUrl_dedup_skip envLiveYes (some wLast) wUrl).1 ⟨wLast, rfl⟩ (fun _ => rfl)

/-! ## C9: the Title/Link Resolver -/

theorem chooseFoldA_zero (env : Env) (url : Str) :
    ∀ (anchors : List (Str × Str)), (∀ p ∈ anchors, adjScore env p.1 = 0) →
      anchors.foldl (chooseStepA env url) (none, none, 0) = (none, none, 0) := by
  intro anchors
  induction anchors with
  | nil => intro _; rfl
  | cons p tl ih =>
    intro h
    rw [List.foldl_cons]
    have hstep : chooseStepA env url (none, none, 0) p = (none, none, 0) := by
      simp [chooseStepA, h p (List.mem_cons_self p tl)]
    rw [hstep]
    exact ih (fun q hq => h q (List.mem_cons_of_mem _ hq))

theorem chooseFoldH_zero (env : Env) :
    ∀ (headings : List Str), (∀ t ∈ headings, adjScore env t = 0) →
      headings.foldl (chooseStepH env) (none, none, 0) = (none, none, 0) := by
  intro headings
  induction headings with
  | nil => intro _; rfl
  | cons t tl ih =>
    intro h
    rw [List.foldl_cons]
    have hstep : chooseStepH env (none, none, 0) t = (none, none, 0) := by
      simp [chooseStepH, h t (List.mem_cons_self t tl)]
    rw [hstep]
    exact ih (fun q hq => h q (List.mem_cons_of_mem _ hq))

theorem chooseFoldA_inv (env : Env) (url : Str) (S : List Str) :
    ∀ (anchors : List (Str × Str)) (acc : Option Str × Option Str × Nat),
      (∀ p ∈ anchors, p.1 ∈ S) →
      (∀ u, acc.1 = some u → 0 < adjScore env u ∧ u ∈ S) →
      ∀ u, (anchors.foldl (chooseStepA env url) acc).1 = some u →
        0 < adjScore env u ∧ u ∈ S := by
  intro anchors
  induction anchors with
  | nil => intro acc _ hacc u hu; exact hacc u hu
  | cons p tl ih =>
    intro acc hmem hacc u hu
    rw [List.foldl_cons] at hu
    refine ih (chooseStepA env url acc p) (fun q hq => hmem q (List.mem_cons_of_mem _ hq))
      ?_ u hu
    intro v hv
    unfold chooseStepA at hv
    by_cases hlt : acc.2.2 < adjScore env p.1
    · rw [if_pos hlt] at hv
      simp only [Option.some_inj] at hv
      subst hv
      exact ⟨by omega, hmem p (List.mem_cons_self p tl)⟩
    · rw [if_neg hlt] at hv
      exact hacc v hv

theorem chooseFoldH_inv (env : Env) (S : List Str) :
    ∀ (headings : List Str) (acc : Option Str × Option Str × Nat),
      (∀ t ∈ headings, t ∈ S) →
      (∀ u, acc.1 = some u → 0 < adjScore env u ∧ u ∈ S) →
      ∀ u, (headings.foldl (chooseStepH env) acc).1 = some u →
        0 < adjScore env u ∧ u ∈ S := by
  intro headings
  induction headings with
  | nil => intro acc _ hacc u hu; exact hacc u hu
  | cons t tl ih =>
    intro acc hmem hacc u hu
    rw [List.foldl_cons] at hu
    refine ih (chooseStepH env acc t) (fun q hq => hmem q (List.mem_cons_of_mem _ hq)) ?_ u hu
    intro v hv
    unfold chooseStepH at hv
    by_cases hlt : acc.2.2 < adjScore env t
    · rw [if_pos hlt] at hv
      simp only [Option.some_inj] at hv
      subst hv
      exact ⟨by omega, hmem t (List.mem_cons_self t tl)⟩
    · rw [if_neg hlt] at hv
      exact hacc v hv

/-- C9.  The Title/Link Resolver returns (no title, no link) whenever every
anchor text and every heading text scores 0 under the Pattern Scorer and
contains no standalone word "live"; a candidate title is ever selected only
when its score plus the live bonus is strictly positive (and it is one of
the anchor/heading texts); and when no title is selected the main loop
falls back to the finding's snippet as the title. -/
theorem chooseBest_spec (env : Env) (html url : Str) :
    ((∀ p ∈ extractAnchors env html,
        (score_text_block (PATTERNS env) p.1).1 = 0 ∧ env.re_live_word p.1 = false) →
      (∀ t ∈ extractHeadings env html,
        (score_text_block (PATTERNS env) t).1 = 0 ∧ env.re_live_word t = false) →
      chooseBestTitleAndLink env html url = (none, none))
    ∧ (∀ t h, chooseBestTitleAndLink env html url = (some t, h) →
        0 < adjScore env t
          ∧ (t ∈ (extractAnchors env html).map Prod.fst ∨ t ∈ extractHeadings env html))
    ∧ (∀ ftext, resolveTitle none ftext = ftext) := by
  refine ⟨?_, ?_, fun _ => rfl⟩
  · intro h1 h2
    have ha : ∀ p ∈ extractAnchors env html, adjScore env p.1 = 0 := by
      intro p hp
      have := h1 p hp
      simp [adjScore, this.1, this.2]
    have hh : ∀ t ∈ extractHeadings env html, adjScore env t = 0 := by
      intro t htm
      have := h2 t htm
      simp [adjScore, this.1, this.2]
    have hA := chooseFoldA_zero env url (extractAnchors env html) ha
    have hH := chooseFoldH_zero env (extractHeadings env html) hh
    simp only [chooseBestTitleAndLink, hA, hH]
  · intro t h hEq
    unfold chooseBestTitleAndLink at hEq
    have h1 : ((extractHeadings env html).foldl (chooseStepH env)
        ((extractAnchors env html).foldl (chooseStepA env url) (none, none, 0))).1 = some t :=
      congrArg Prod.fst hEq
    have hbase : ∀ u, (((extractAnchors env html).foldl (chooseStepA env url)
        (none, none, 0)).1 = some u) →
        0 < adjScore env u
          ∧ u ∈ (extractAnchors env html).map Prod.fst ++ extractHeadings env html :=
      chooseFoldA_inv env url _ (extractAnchors env html) (none, none, 0)
        (fun p hp => List.mem_append_left _ (List.mem_map_of_mem Prod.fst hp))
        (by intro u hu; simp at hu)
    have hres := chooseFoldH_inv env _ (extractHeadings env html)
      ((extractAnchors env html).foldl (chooseStepA env url) (none, none, 0))
      (fun q hq => List.mem_append_right _ hq) hbase t h1
    exact ⟨hres.1, List.mem_append.1 hres.2⟩

/-- Concrete run through the theorem: a page with one zero-scoring,
live-free anchor and no headings resolves to (no title, no link). -/
theorem chooseBest_spec_witness :
    chooseBestTitleAndLink envZeroScore wHtml wUrl = (none, none) :=
  (chooseBest_spec envZeroScore wHtml wUrl).1 (by decide) (by decide)

/-! ## C8: the Text Extractor output -/

theorem dedupR_sublist : ∀ l : List Str, List.Sublist (dedupR l) l := by
  intro l
  induction l using dedupR.induct with
  | case1 => simp [dedupR]
  | case2 b tl ih =>
    rw [dedupR]
    exact List.Sublist.cons₂ b (ih.trans (List.filter_sublist tl))

theorem mem_of_mem_dedupR {a : Str} {l : List Str} (h : a ∈ dedupR l) : a ∈ l :=
  (dedupR_sublist l).subset h

theorem dedupR_nodup : ∀ l : List Str, (dedupR l).Nodup := by
  intro l
  induction l using dedupR.induct with
  | case1 => simp [dedupR]
  | case2 b tl ih =>
    rw [dedupR]
    refine List.nodup_cons.2 ⟨?_, ih⟩
    intro hmem
    have h2 := List.mem_filter.1 (mem_of_mem_dedupR hmem)
    simp at h2

theorem firstIdx_cons_self (a : Str) (l : List Str) : firstIdx a (a :: l) = 0 := by
  simp [firstIdx]

theorem firstIdx_cons_ne (a b : Str) (l : List Str) (h : b ≠ a) :
    firstIdx a (b :: l) = firstIdx a l + 1 := by
  simp [firstIdx, h]

theorem firstIdx_filter_lt (p : Str → Bool) :
    ∀ (t : List Str) (a b : Str), a ∈ t.filter p → b ∈ t.filter p →
      firstIdx a (t.filter p) < firstIdx b (t.filter p) →
      firstIdx a t < firstIdx b t := by
  intro t
  induction t with
  | nil => intro a b ha _ _; simp at ha
  | cons c tl ih =>
    intro a b ha hb hlt
    by_cases hpc : p c = true
    · rw [List.filter_cons_of_pos hpc] at ha hb hlt
      by_cases hca : c = a
      · have hbc : b ≠ c := by
          intro hEq
          rw [hca, firstIdx_cons_self] at hlt
          rw [hEq, hca, firstIdx_cons_self] at hlt
          omega
        rw [← hca, firstIdx_cons_self, firstIdx_cons_ne b c tl (Ne.symm hbc)]
        omega
      · by_cases hcb : c = b
        · rw [← hcb, firstIdx_cons_self, firstIdx_cons_ne a c _ hca] at hlt
          omega
        · rw [firstIdx_cons_ne a c _ hca, firstIdx_cons_ne b c _ hcb] at hlt
          have haf : a ∈ tl.filter p := by
            rcases List.mem_cons.1 ha with h | h
            · exact absurd h.symm hca
            · exact h
          have hbf : b ∈ tl.filter p := by
            rcases List.mem_cons.1 hb with h | h
            · exact absurd h.symm hcb
            · exact h
          have := ih a b haf hbf (by omega)
          rw [firstIdx_cons_ne a c _ hca, firstIdx_cons_ne b c _ hcb]
          omega
    · rw [List.filter_cons_of_neg (by simpa using hpc)] at ha hb hlt
      have hpa : p a = true := (List.mem_filter.1 ha).2
      have hpb : p b = true := (List.mem_filter.1 hb).2
      have hac : c ≠ a := fun hEq => hpc (hEq ▸ hpa)
      have hbc : c ≠ b := fun hEq => hpc (hEq ▸ hpb)
      rw [firstIdx_cons_ne a c _ hac, firstIdx_cons_ne b c _ hbc]
      have := ih a b ha hb hlt
      omega

theorem dedupR_pairwise :
    ∀ l : List Str, (dedupR l).Pairwise (fun a b => firstIdx a l < firstIdx b l) := by
  intro l
  induction l using dedupR.induct with
  | case1 => simp [dedupR]
  | case2 b tl ih =>
    rw [dedupR]
    refine List.pairwise_cons.2 ⟨?_, ?_⟩
    · intro y hy
      have hyb : y ≠ b := by simpa using (List.mem_filter.1 (mem_of_mem_dedupR hy)).2
      rw [firstIdx_cons_self, firstIdx_cons_ne y b tl (Ne.symm hyb)]
      omega
    · refine ih.imp_of_mem ?_
      intro a c ha hc hlt
      have haf := mem_of_mem_dedupR ha
      have hcf := mem_of_mem_dedupR hc
      have hab : a ≠ b := by simpa using (List.mem_filter.1 haf).2
      have hcb : c ≠ b := by simpa using (List.mem_filter.1 hcf).2
      have h2 := firstIdx_filter_lt (fun x => decide ¬x = b) tl a c haf hcf hlt
      rw [firstIdx_cons_ne a b tl (Ne.symm hab), firstIdx_cons_ne c b tl (Ne.symm hcb)]
      omega

theorem pyDedup_go : ∀ (l acc : List Str),
    l.foldl dedupStep acc = acc ++ dedupR (l.filter (fun x => x ∉ acc)) := by
  intro l
  induction l with
  | nil => intro acc; simp [dedupR]
  | cons b tl ih =>
    intro acc
    rw [List.foldl_cons]
    by_cases hb : b ∈ acc
    · have hstep : dedupStep acc b = acc := by simp [dedupStep, hb]
      have hfil : (b :: tl).filter (fun x => x ∉ acc) = tl.filter (fun x => x ∉ acc) := by
        simp [List.filter_cons, hb]
      rw [hstep, ih acc, hfil]
    · have hstep : dedupStep acc b = acc ++ [b] := by simp [dedupStep, hb]
      have hfil : (b :: tl).filter (fun x => x ∉ acc) = b :: tl.filter (fun x => x ∉ acc) := by
        simp [List.filter_cons, hb]
      rw [hstep, ih (acc ++ [b]), hfil, dedupR]
      have hff : tl.filter (fun x => x ∉ acc ++ [b])
          = (tl.filter (fun x => x ∉ acc)).filter (fun x => decide ¬x = b) := by
        rw [List.filter_filter]
        apply List.filter_congr
        intro x _
        simp [List.mem_append, not_or, Bool.decide_and]
        rw [Bool.and_comm]
      rw [hff]
      simp [List.append_assoc]

theorem pyDedup_eq_dedupR (l : List Str) : pyDedup l = dedupR l := by
  have h := pyDedup_go l []
  simpa [pyDedup, List.filter_true] using h

/-- C8.  For every HTML input and every collaborator assignment, the Text
Extractor's output has no duplicate strings, has at most 600 entries, is a
sublist of the harvested block stream, and lists its entries in strictly
increasing order of their first occurrence in that stream (first-seen order). -/
theorem extract_text_blocks_spec (env : Env) (html : Str) :
    (extract_text_blocks env html).Nodup
      ∧ (extract_text_blocks env html).length ≤ 600
      ∧ List.Sublist (extract_text_blocks env html) (gatherBlocks env html)
      ∧ (extract_text_blocks env html).Pairwise
          (fun a b => firstIdx a (gatherBlocks env html) < firstIdx b (gatherBlocks env html)) := by
  unfold extract_text_blocks
  rw [pyDedup_eq_dedupR]
  exact ⟨(dedupR_nodup _).sublist (List.take_sublist _ _),
         List.length_take_le _ _,
         (List.take_sublist _ _).trans (dedupR_sublist _),
         (dedupR_pairwise _).sublist (List.take_sublist _ _)⟩

/-! ## C4: the Snippet Selector truncation -/

theorem rsplitSp1_length_le : ∀ l : Str, (rsplitSp1 l).length ≤ l.length := by
  intro l
  induction l with
  | nil => simp [rsplitSp1]
  | cons c rest ih =>
    simp only [rsplitSp1]
    by_cases h1 : ' ' ∈ rest
    · rw [if_pos h1]
      simp only [List.length_cons]
      omega
    · rw [if_neg h1]
      by_cases h2 : c = ' '
      · rw [if_pos h2]
        simp
      · rw [if_neg h2]
        simp only [List.length_cons]
        omega

theorem rsplitSp1_length_lt : ∀ l : Str, ' ' ∈ l → (rsplitSp1 l).length < l.length := by
  intro l
  induction l with
  | nil => intro h; simp at h
  | cons c rest ih =>
    intro hmem
    simp only [rsplitSp1]
    by_cases h1 : ' ' ∈ rest
    · rw [if_pos h1]
      have := ih h1
      simp only [List.length_cons]
      omega
    · have hc : c = ' ' := by
        rcases List.mem_cons.1 hmem with h | h
        · exact h.symm
        · exact absurd h h1
      rw [if_neg h1, if_pos hc]
      simp

theorem charAt_cons_succ (c : Char) (l : Str) (n : Nat) : charAt (c :: l) (n + 1) = charAt l n :=
  rfl

theorem charAt_take : ∀ (l : Str) (m k : Nat), k < m → charAt (l.take m) k = charAt l k := by
  intro l
  induction l with
  | nil => intro m k _; simp [charAt]
  | cons c rest ih =>
    intro m k hk
    cases m with
    | zero => omega
    | succ m =>
      rw [List.take_succ_cons]
      cases k with
      | zero => rfl
      | succ k =>
        rw [charAt_cons_succ, charAt_cons_succ]
        exact ih m k (by omega)

theorem rsplitSp1_charAt : ∀ l : Str, ' ' ∈ l → charAt l (rsplitSp1 l).length = some ' ' := by
  intro l
  induction l with
  | nil => intro h; simp at h
  | cons c rest ih =>
    intro hmem
    by_cases h1 : ' ' ∈ rest
    · simp only [rsplitSp1, if_pos h1, List.length_cons, charAt_cons_succ]
      exact ih h1
    · have hc : c = ' ' := by
        rcases List.mem_cons.1 hmem with h | h
        · exact h.symm
        · exact absurd h h1
      simp only [rsplitSp1, if_neg h1, if_pos hc, List.length_nil]
      simp [charAt, hc]

/-- C4 (amended).  The Snippet Selector returns either no snippet, or a
snippet of at most 700 characters plus the two-character `" …"` marker.
When the excerpt fits in 700 characters it is returned whole; when it is
truncated, the kept text is the part of the 700-character prefix before its
last space — so whenever that prefix contains a space at all, the cut falls
exactly on a space of the original excerpt (a whitespace boundary).  When
the prefix contains no space the whole 700-character prefix is kept, which
can split a word (see the counterexample `snippet_truncation_mid_word`). -/
theorem best_sentence_snippet_truncation (ps : List Signal) (block : Str) :
    (best_sentence_snippet ps block).1 = none
      ∨ ∃ s, (best_sentence_snippet ps block).1 = some s
          ∧ s.length ≤ 700 + 2
          ∧ ((bssJoined ps (split_into_sentences block)).length ≤ 700
                ∧ s = bssJoined ps (split_into_sentences block)
             ∨ 700 < (bssJoined ps (split_into_sentences block)).length
                ∧ s = rsplitSp1 ((bssJoined ps (split_into_sentences block)).take 700)
                        ++ [' ', '…']
                ∧ (' ' ∈ (bssJoined ps (split_into_sentences block)).take 700 →
                    charAt (bssJoined ps (split_into_sentences block))
                        (rsplitSp1 ((bssJoined ps (split_into_sentences block)).take 700)).length
                      = some ' ')) := by
  by_cases hs : split_into_sentences block = []
  · left
    simp [best_sentence_snippet, hs]
  · right
    by_cases hlen : 700 < (bssJoined ps (split_into_sentences block)).length
    · refine ⟨rsplitSp1 ((bssJoined ps (split_into_sentences block)).take 700) ++ [' ', '…'],
        ?_, ?_, Or.inr ⟨hlen, rfl, ?_⟩⟩
      · simp [best_sentence_snippet, hs, hlen]
      · have h1 := rsplitSp1_length_le ((bssJoined ps (split_into_sentences block)).take 700)
        have h2 := List.length_take_le 700 (bssJoined ps (split_into_sentences block))
        simp only [List.length_append, List.length_cons, List.length_nil]
        omega
      · intro hsp
        have hga := rsplitSp1_charAt _ hsp
        have hlt := rsplitSp1_length_lt _ hsp
        have h2 := List.length_take_le 700 (bssJoined ps (split_into_sentences block))
        rw [charAt_take _ 700 _ (by omega)] at hga
        exact hga
    · refine ⟨bssJoined ps (split_into_sentences block), ?_, by omega, Or.inl ⟨by omega, rfl⟩⟩
      simp [best_sentence_snippet, hs, hlen]

set_option maxRecDepth 100000 in
/-- C4 (counterexample to the claim as stated).  A block consisting of one
single 701-character word (no whitespace anywhere) is truncated: the
returned snippet keeps exactly the first 700 characters of the word and
appends the `" …"` marker, so the cut falls in the middle of the word, not
at a whitespace boundary. -/
theorem snippet_truncation_mid_word :
    (best_sentence_snippet (PATTERNS baseEnv) (List.replicate 701 'a')).1
        = some (List.replicate 700 'a' ++ [' ', '…'])
      ∧ (List.replicate 701 'a').all (fun c => !(isPySpace c)) = true :=
  ⟨by decide, by decide⟩
